import Mathlib

/-
Verification of the Tegen package manager's dependency resolution and
integration pipeline (class PackageManager, git-clone revision of
package_manager.hpp, together with main.cpp) against its specification.

The embedding models the on-disk state that install manipulates:
the manifest's dependencies object in TegenConfig.json, the consumer's
include/ and lib/ directories as path-to-content maps, and the blocks
that install appends to CMakeLists.txt.  External effects (git, the
filesystem copy primitives, remove_all) are driven by an oracle that
fixes the outcome of each external step of one install call.
-/

namespace Tegen

/-- Host platform, mirroring the compile-time switch in
PackageManager::install (_WIN32 / __APPLE__ / otherwise). -/
inductive Platform where
  | linux
  | windows
  | macos
deriving DecidableEq, Repr

/-- Default branch chosen by the platform switch in PackageManager::install
(osBranch = "WindowsBranch" / "MacBranch" / "LinuxBranch"). -/
def osBranch : Platform → String
  | Platform.windows => "WindowsBranch"
  | Platform.macos => "MacBranch"
  | Platform.linux => "LinuxBranch"

/-- resolvedVersion in PackageManager::install:
`version.empty() ? osBranch : version`. -/
def resolveVersion (version : String) (p : Platform) : String :=
  if version = "" then osBranch p else version

/-- Characters of the final path component (after the last slash). -/
def basenameChars (cs : List Char) : List Char :=
  ((cs.reverse).takeWhile (fun c => c != '/')).reverse

/-- The final path component of a path string, as
std::filesystem::path::filename produces for the paths that occur here. -/
def basenameStr (p : String) : String :=
  String.mk (basenameChars p.data)

/-- Extension of a path in the sense of std::filesystem::path::extension:
the suffix of the filename starting at its last dot, except that ".",
"..", and names whose only dot is the leading one have no extension. -/
def extChars (p : List Char) : List Char :=
  let name := basenameChars p
  if name = ['.', '.'] then []
  else
    let tl := ((name.reverse).takeWhile (fun c => c != '.')).reverse
    if tl.length = name.length then []
    else if tl.length + 1 = name.length then []
    else '.' :: tl

/-- The static-library test used twice by install:
`path.extension() == ".a" || path.extension() == ".lib"`. -/
def isLibName (p : String) : Bool :=
  extChars p.data = ['.', 'a'] || extChars p.data = ['.', 'l', 'i', 'b']

/-- Lookup in a string-keyed association (the manifest's dependencies
object, and directories modelled as path-to-content maps). -/
def mapGet : List (String × String) → String → Option String
  | [], _ => none
  | (n, v) :: rest, q => if n = q then some v else mapGet rest q

/-- Overwriting update: replaces an existing binding or appends a new one.
This is both json object assignment and copy_file with
copy_options::overwrite_existing on a flat directory. -/
def mapSet : List (String × String) → String → String → List (String × String)
  | [], q, c => [(q, c)]
  | (n, v) :: rest, q, c =>
    if n = q then (q, c) :: rest else (n, v) :: mapSet rest q c

/-- Value of the last binding of q in a copy list, if any: when several
staged files target the same destination path, the later copy wins. -/
def lastVal : List (String × String) → String → Option String
  | [], _ => none
  | (n, v) :: rest, q =>
    match lastVal rest q with
    | some r => some r
    | none => if n = q then some v else none

mutual
/-- An entry of the staged source tree fetched into TegenModules:
a regular file with its content, or a directory. -/
inductive FsEntry where
  | file (content : String) : FsEntry
  | dir (entries : FsDir) : FsEntry

/-- The ordered named entries of a staged directory. -/
inductive FsDir where
  | nil : FsDir
  | cons (name : String) (entry : FsEntry) (rest : FsDir) : FsDir
end

/-- Builds a staged directory from a list of named entries. -/
def dirOf : List (String × FsEntry) → FsDir
  | [] => FsDir.nil
  | (n, e) :: rest => FsDir.cons n e (dirOf rest)

/-- Directory entry lookup (std::filesystem::exists on repoDir / name,
plus inspection of what the entry is). -/
def dirLookup (q : String) : FsDir → Option FsEntry
  | FsDir.nil => none
  | FsDir.cons n e rest => if n = q then some e else dirLookup q rest

/-- Relative path of a child inside a subtree being walked. -/
def childPath (pre n : String) : String :=
  if pre = "" then n else pre ++ "/" ++ n

mutual
/-- Regular files reachable from one entry, with their relative paths:
what recursive_directory_iterator visits and is_regular_file keeps. -/
def entryFiles (pre : String) : FsEntry → List (String × String)
  | FsEntry.file c => [(pre, c)]
  | FsEntry.dir d => dirFiles pre d

/-- Regular files under a directory, with paths relative to the walk root. -/
def dirFiles (pre : String) : FsDir → List (String × String)
  | FsDir.nil => []
  | FsDir.cons n e rest => entryFiles (childPath pre n) e ++ dirFiles pre rest
end

mutual
/-- The single-child descent of install's COPY LIBS section: while the
current entry exists, is a directory and has exactly one child, move to
that child.  The loop can stop on a regular file (whose enumeration then
fails) or on a directory with zero or several entries. -/
def descendEntry : FsEntry → FsEntry
  | FsEntry.file c => FsEntry.file c
  | FsEntry.dir d => descendDir d

/-- One step of the single-child descent at directory level. -/
def descendDir : FsDir → FsEntry
  | FsDir.cons _ e FsDir.nil => descendEntry e
  | d => FsEntry.dir d
end

mutual
/-- The single-child chain starting at this entry consists of directories
and ends on a directory (the hypothesis of claim C8). -/
def chainAllDirs : FsEntry → Bool
  | FsEntry.file _ => false
  | FsEntry.dir d => chainDirAll d

/-- Chain check at directory level: a single child must again head an
all-directories chain; zero or several children end the chain here. -/
def chainDirAll : FsDir → Bool
  | FsDir.cons _ e FsDir.nil => chainAllDirs e
  | _ => true
end

/-- COPY HEADERS section of install: if repoDir/include exists, enumerate
its regular files (two passes: collect, then copy) and copy each to the
same relative path under the project include directory, overwriting.
If repoDir/include does not exist the section is skipped.  If the entry
exists but is a regular file, recursive_directory_iterator throws and the
stage fails.  hFail models a copy_file failure after k successful copies;
the files already copied stay in place (no rollback). -/
def copyHeaders (root : FsDir) (inc : List (String × String)) (hFail : Option Nat) :
    List (String × String) × Bool :=
  match dirLookup "include" root with
  | none => (inc, true)
  | some (FsEntry.file _) => (inc, false)
  | some (FsEntry.dir es) =>
    let files := dirFiles "" es
    match hFail with
    | none => (files.foldl (fun m fc => mapSet m fc.1 fc.2) inc, true)
    | some k => ((files.take k).foldl (fun m fc => mapSet m fc.1 fc.2) inc, false)

/-- The library files the COPY LIBS section copies out of the located
directory: regular files with extension .a or .lib, keyed by bare
filename (the copy flattens directory structure). -/
def libTargets (es : FsDir) : List (String × String) :=
  ((dirFiles "" es).filter (fun fc => isLibName fc.1)).map
    (fun fc => (basenameStr fc.1, fc.2))

/-- COPY LIBS section of install: starting from repoDir/lib, descend
single-child chains; if the located entry is a regular file the
enumeration throws and the stage fails; otherwise copy every .a/.lib
regular file below it into the project lib directory under its bare
filename, overwriting.  Absent repoDir/lib skips the stage.  lFail models
a copy_file failure after k successful copies. -/
def copyLibs (root : FsDir) (lib : List (String × String)) (lFail : Option Nat) :
    List (String × String) × Bool :=
  match dirLookup "lib" root with
  | none => (lib, true)
  | some e0 =>
    match descendEntry e0 with
    | FsEntry.file _ => (lib, false)
    | FsEntry.dir es =>
      let files := libTargets es
      match lFail with
      | none => (files.foldl (fun m fc => mapSet m fc.1 fc.2) lib, true)
      | some k => ((files.take k).foldl (fun m fc => mapSet m fc.1 fc.2) lib, false)

/-- The marker line that heads every block install appends to
CMakeLists.txt. -/
def markerFor (repo : String) : String := "# Added by Tegen for " ++ repo

/-- One block appended to CMakeLists.txt by the UPDATE CMakeLists.txt
section: the marker comment, include_directories(include), one
target_link_libraries line per .a/.lib file found in the project lib
directory at patch time, and on Windows the socket system libraries. -/
structure TegenBlock where
  marker : String
  links : List String
  winSysLibs : Bool
deriving DecidableEq, Repr

/-- UPDATE CMakeLists.txt section of install: unconditionally appends a
new block; the link lines are generated from every .a/.lib file present
in the project lib directory, not only those of the new dependency. -/
def patchCMake (blocks : List TegenBlock) (repo : String)
    (libMap : List (String × String)) (p : Platform) : List TegenBlock :=
  blocks ++ [⟨markerFor repo,
              (libMap.filter (fun fc => isLibName fc.1)).map (fun fc => fc.1),
              decide (p = Platform.windows)⟩]

/-- Number of marked blocks for one dependency in CMakeLists.txt. -/
def countMarked (repo : String) (blocks : List TegenBlock) : Nat :=
  (blocks.filter (fun b => b.marker == markerFor repo)).length

/-- The consumer project state that install reads and writes: the
dependencies object persisted in TegenConfig.json, the include/ and lib/
directories, and the Tegen blocks of CMakeLists.txt. -/
structure ProjectState where
  deps : List (String × String)
  includeFiles : List (String × String)
  libFiles : List (String × String)
  cmakeBlocks : List TegenBlock
deriving DecidableEq, Repr

/-- What one call of PackageManager::install reports: the missing-config
message, the already-installed short-circuit, the caught-exception
failure message, or success (possibly with a cleanup warning). -/
inductive InstallOutcome where
  | noConfig
  | alreadyInstalled (version : String)
  | failed
  | success (cleanupWarning : Bool)
deriving DecidableEq, Repr

/-- Outcomes of the external steps of one install call: the staged tree
git produces (none models a git failure, i.e. a FetchError), copy
failures in the two integration stages, and whether remove_all reports
an error during cleanup. -/
structure Oracle where
  fetched : Option FsDir
  headerFail : Option Nat
  libFail : Option Nat
  cleanupFail : Bool

/-- PackageManager::removeFolderRecursively: calls remove_all with an
error_code; a failure is printed as a warning and nothing is thrown, so
the function only reports whether a warning was emitted. -/
def removeFolderRecursively (removeAllFails : Bool) : Bool := removeAllFails

/-- PackageManager::install (git-clone revision): config guard, version
resolution, duplicate-install guard on the dependencies object, then
inside the try block fetch, header copy, lib copy, CMakeLists patch,
manifest save, cleanup.  Any exception in the try block is caught and
reported as a failure; the manifest is saved only after patching. -/
def install (configPresent : Bool) (st : ProjectState) (repository version : String)
    (p : Platform) (orc : Oracle) : ProjectState × InstallOutcome :=
  if configPresent then
    let resolvedVersion := resolveVersion version p
    match mapGet st.deps repository with
    | some v => (st, InstallOutcome.alreadyInstalled v)
    | none =>
      match orc.fetched with
      | none => (st, InstallOutcome.failed)
      | some root =>
        match copyHeaders root st.includeFiles orc.headerFail with
        | (inc', false) => (⟨st.deps, inc', st.libFiles, st.cmakeBlocks⟩, InstallOutcome.failed)
        | (inc', true) =>
          match copyLibs root st.libFiles orc.libFail with
          | (lib', false) => (⟨st.deps, inc', lib', st.cmakeBlocks⟩, InstallOutcome.failed)
          | (lib', true) =>
            (⟨mapSet st.deps repository resolvedVersion, inc', lib',
              patchCMake st.cmakeBlocks repository lib' p⟩,
             InstallOutcome.success (removeFolderRecursively orc.cleanupFail))
  else (st, InstallOutcome.noConfig)

/-- One filesystem action of PackageManager::saveConfig. -/
inductive FsWriteOp where
  | truncateOpen (path : String)
  | writeStr (path : String) (content : String)
  | renameFile (src dst : String)
deriving DecidableEq, Repr

/-- The action sequence of PackageManager::saveConfig: it constructs an
ofstream directly on TegenConfig.json (which truncates the file) and then
streams config.dump(4) into it.  No temporary file and no rename occur. -/
def saveConfigOps (content : String) : List FsWriteOp :=
  [FsWriteOp.truncateOpen "TegenConfig.json",
   FsWriteOp.writeStr "TegenConfig.json" content]

/-- Effect of one write action on a directory of files. -/
def applyWriteOp (fs : List (String × String)) : FsWriteOp → List (String × String)
  | FsWriteOp.truncateOpen p => mapSet fs p ""
  | FsWriteOp.writeStr p c => mapSet fs p c
  | FsWriteOp.renameFile src dst =>
    match mapGet fs src with
    | none => fs
    | some c => mapSet fs dst c

/-- Effect of a sequence of write actions; a prefix of the sequence
models an interrupted run. -/
def runWriteOps (ops : List FsWriteOp) (fs : List (String × String)) :
    List (String × String) :=
  ops.foldl applyWriteOp fs

/-- Whether an action is a rename. -/
def isRenameOp : FsWriteOp → Bool
  | FsWriteOp.renameFile _ _ => true
  | _ => false

/-- Exit code and whether an error message was printed, for one run of
main. -/
structure MainResult where
  exitCode : Nat
  errorReported : Bool
deriving DecidableEq, Repr

/-- Environment of one CLI run: project state, platform, the install
oracle, and the outcomes of the external cmake/run invocations. -/
structure World where
  configPresent : Bool
  st : ProjectState
  platform : Platform
  orc : Oracle
  cmakeConfigureOk : Bool
  cmakeBuildOk : Bool
  exeExists : Bool
  runExitZero : Bool

/-- Which install outcomes print an error message (cerr): the missing
config message and the caught-exception failure message. -/
def installReported : InstallOutcome → Bool
  | InstallOutcome.noConfig => true
  | InstallOutcome.failed => true
  | _ => false

/-- Command dispatch of main.cpp inside its try block.  install catches
its own exceptions, so main returns 0 after any install call; build lets
executeCommand's exception escape to main's catch (exit 1); run prints
its errors and returns normally; an unknown command prints an error and
falls through to return 0. -/
def dispatchCmd (cmd : String) (arg : Option String) (w : World) : MainResult :=
  if cmd = "init" then ⟨0, false⟩
  else if cmd = "install" then
    match arg with
    | none => ⟨1, true⟩
    | some pkg =>
      ⟨0, installReported (install w.configPresent w.st pkg "" w.platform w.orc).2⟩
  else if cmd = "list" then ⟨0, !w.configPresent⟩
  else if cmd = "build" then
    if !w.configPresent then ⟨0, true⟩
    else if !w.cmakeConfigureOk then ⟨1, true⟩
    else if !w.cmakeBuildOk then ⟨1, true⟩
    else ⟨0, false⟩
  else if cmd = "run" then
    if !w.configPresent then ⟨0, true⟩
    else if !w.exeExists then ⟨0, true⟩
    else if !w.runExitZero then ⟨0, true⟩
    else ⟨0, false⟩
  else ⟨0, true⟩

/-- main of main.cpp: no arguments prints usage and returns 1; exactly
"-h" prints help and returns 0; otherwise the command is dispatched and
main returns 0 unless an exception escaped or an argument was missing. -/
def mainRun (args : List String) (w : World) : MainResult :=
  match args with
  | [] => ⟨1, true⟩
  | [a] => if a = "-h" then ⟨0, false⟩ else dispatchCmd a none w
  | a :: b :: _ => dispatchCmd a (some b) w

/-- Reading back an overwriting update: the written path holds the new
content, every other path is untouched. -/
theorem mapGet_mapSet (m : List (String × String)) (p c q : String) :
    mapGet (mapSet m p c) q = if p = q then some c else mapGet m q := by
  induction m with
  | nil =>
    by_cases h : p = q <;> simp [mapSet, mapGet, h]
  | cons hd tl ih =>
    obtain ⟨n, v⟩ := hd
    by_cases hn : n = p
    · subst hn
      by_cases hq : n = q <;> simp [mapSet, mapGet, hq]
    · by_cases hq : n = q
      · subst hq
        have hpq : ¬p = n := fun h => hn h.symm
        simp [mapSet, mapGet, hn, hpq]
      · simp [mapSet, mapGet, hn, hq, ih]

/-- Reading back a sequence of overwriting copies: the last copy to a
path wins, and paths no copy targets keep their prior content. -/
theorem mapGet_foldSet (fs : List (String × String)) (m0 : List (String × String))
    (q : String) :
    mapGet (fs.foldl (fun m fc => mapSet m fc.1 fc.2) m0) q =
      match lastVal fs q with
      | some c => some c
      | none => mapGet m0 q := by
  induction fs generalizing m0 with
  | nil => simp [lastVal]
  | cons hd tl ih =>
    rw [List.foldl_cons, ih]
    cases h : lastVal tl q with
    | some r => simp [lastVal, h]
    | none =>
      by_cases hq : hd.1 = q <;> simp [lastVal, h, mapGet_mapSet, hq]

/-- A successful lookup exhibits a binding in the association list. -/
theorem mem_of_mapGet (m : List (String × String)) (q v : String)
    (h : mapGet m q = some v) : (q, v) ∈ m := by
  induction m with
  | nil => simp [mapGet] at h
  | cons hd tl ih =>
    obtain ⟨n, w⟩ := hd
    by_cases hn : n = q
    · subst hn
      simp [mapGet] at h
      simp [h]
    · simp [mapGet, hn] at h
      exact List.mem_cons_of_mem _ (ih h)

mutual
/-- A single-child chain of directories is located by the descent at a
directory. -/
theorem descendEntry_chain : ∀ e : FsEntry, chainAllDirs e = true →
    ∃ d : FsDir, descendEntry e = FsEntry.dir d
  | FsEntry.file _ => fun h => by simp [chainAllDirs] at h
  | FsEntry.dir d => fun h => descendDir_chain d h

/-- Directory-level step of the located-directory lemma. -/
theorem descendDir_chain : ∀ d : FsDir, chainDirAll d = true →
    ∃ es : FsDir, descendDir d = FsEntry.dir es
  | FsDir.nil => fun _ => ⟨FsDir.nil, rfl⟩
  | FsDir.cons _ e FsDir.nil => fun h => descendEntry_chain e h
  | FsDir.cons _ _ (FsDir.cons _ _ _) => fun _ => ⟨_, rfl⟩
end

/-- Claim C6: install resolves the version as follows: a requested
version is used verbatim; with no requested version the resolved version
is the platform default branch, one of the three fixed constants; in all
cases the resolved version is non-empty. -/
theorem install_resolves_version (v : String) (p : Platform) :
    resolveVersion v p ≠ "" ∧
    (v = "" → resolveVersion v p = osBranch p ∧
      (resolveVersion v p = "LinuxBranch" ∨ resolveVersion v p = "WindowsBranch" ∨
        resolveVersion v p = "MacBranch")) ∧
    (v ≠ "" → resolveVersion v p = v) := by
  refine ⟨?_, ?_, ?_⟩
  · by_cases h : v = ""
    · subst h; cases p <;> decide
    · rw [resolveVersion, if_neg h]; exact h
  · intro h; subst h; cases p <;> exact ⟨rfl, by decide⟩
  · intro h; rw [resolveVersion, if_neg h]

/-- Witness for claim C6 at concrete inputs. -/
theorem install_resolves_version_witness :
    resolveVersion "" Platform.linux = "LinuxBranch" ∧
    resolveVersion "v1.2" Platform.windows = "v1.2" := by
  constructor
  · have h := (install_resolves_version "" Platform.linux).2.1 rfl
    rw [h.1]; rfl
  · exact (install_resolves_version "v1.2" Platform.windows).2.2 (by decide)

/-- Claim C4: for a dependency already recorded in the manifest, install
short-circuits with the already-installed report and the returned state
is the input state unchanged: same manifest, same include and lib
directories, no new CMakeLists block. -/
theorem install_duplicate_guard (st : ProjectState) (r v : String) (p : Platform)
    (orc : Oracle) (vcur : String) (h : mapGet st.deps r = some vcur) :
    install true st r v p orc = (st, InstallOutcome.alreadyInstalled vcur) := by
  simp [install, h]

/-- A state whose manifest already records widgets. -/
def stDup : ProjectState := ⟨[("widgets", "main")], [("w.h", "H")], [("libw.a", "L")],
  [⟨markerFor "widgets", ["libw.a"], false⟩]⟩

/-- Witness for claim C4: re-running install for widgets changes nothing. -/
theorem install_duplicate_guard_witness :
    install true stDup "widgets" "" Platform.linux ⟨none, none, none, false⟩ =
      (stDup, InstallOutcome.alreadyInstalled "main") :=
  install_duplicate_guard stDup "widgets" "" Platform.linux ⟨none, none, none, false⟩
    "main" (by decide)

/-- A project state left by a run that was interrupted (or hand-edited)
after patching CMakeLists.txt but before the manifest was saved: the
marked block for widgets is present, the manifest is empty. -/
def stResume : ProjectState := ⟨[], [], [], [⟨markerFor "widgets", [], false⟩]⟩

/-- An oracle for a successful install of a dependency whose repository
contains neither an include nor a lib subtree. -/
def orcCleanFetch : Oracle := ⟨some FsDir.nil, none, none, false⟩

/-- Claim C1 (code_bug evidence): the patch step checks no marker.  From
a state already holding the marked block for widgets with widgets absent
from the manifest, a successful install appends a second marked block:
two blocks, where the claim requires exactly one. -/
theorem patch_appends_duplicate_block :
    countMarked "widgets" stResume.cmakeBlocks = 1 ∧
    (install true stResume "widgets" "" Platform.linux orcCleanFetch).2 =
      InstallOutcome.success false ∧
    countMarked "widgets"
      (install true stResume "widgets" "" Platform.linux orcCleanFetch).1.cmakeBlocks = 2 := by
  decide

/-- Claim C5 (code_bug evidence): saveConfig's action sequence contains
no rename at all, and it opens the manifest file itself for writing, so
a run interrupted right after the open leaves the previously valid
manifest truncated to empty instead of intact. -/
theorem save_config_not_atomic :
    (saveConfigOps "NEW").all (fun op => !isRenameOp op) = true ∧
    runWriteOps ((saveConfigOps "NEW").take 1) [("TegenConfig.json", "OLD")] =
      [("TegenConfig.json", "")] := by
  decide

/-- The empty consumer project. -/
def stEmpty : ProjectState := ⟨[], [], [], []⟩

/-- An oracle whose git fetch fails (FetchError). -/
def orcFetchFail : Oracle := ⟨none, none, none, false⟩

/-- A CLI environment with a manifest present and a failing fetch. -/
def wFetchFail : World := ⟨true, stEmpty, Platform.linux, orcFetchFail, true, true, true, true⟩

/-- Claim C3 counterexample: a fetch error during install is reported on
the error channel, yet main returns exit code 0, contradicting the claim
that every reported failure exits non-zero. -/
theorem install_failure_exits_zero :
    mainRun ["install", "widgets"] wFetchFail = ⟨0, true⟩ := by
  decide

/-- Claim C3 as amended: non-zero exits happen exactly for missing
arguments (no command, install without a package) and for exceptions
escaping to main, such as a cmake failure during build; failures
reported from inside PackageManager (missing manifest, fetch or copy
errors during install, run-target problems) and unknown commands print
an error but still exit 0. -/
theorem exit_codes_amended (w : World) (r c : String)
    (hc1 : c ≠ "-h") (hc2 : c ≠ "init") (hc3 : c ≠ "install") (hc4 : c ≠ "list")
    (hc5 : c ≠ "build") (hc6 : c ≠ "run") :
    (mainRun [] w).exitCode = 1 ∧
    (mainRun ["install"] w).exitCode = 1 ∧
    (mainRun ["install", r] w).exitCode = 0 ∧
    (mainRun ["run"] w).exitCode = 0 ∧
    (w.configPresent = true → w.cmakeConfigureOk = false →
      mainRun ["build"] w = ⟨1, true⟩) ∧
    mainRun [c] w = ⟨0, true⟩ := by
  refine ⟨?_, ?_, ?_, ?_, ?_, ?_⟩
  · rfl
  · simp [mainRun, dispatchCmd]
  · simp [mainRun, dispatchCmd]
  · cases hcp : w.configPresent <;> cases he : w.exeExists <;>
      cases hr : w.runExitZero <;> simp [mainRun, dispatchCmd, hcp, he, hr]
  · intro hcp hcfg; simp [mainRun, dispatchCmd, hcp, hcfg]
  · simp [mainRun, dispatchCmd, hc1, hc2, hc3, hc4, hc5, hc6]

/-- Witness for the amended claim C3 at concrete inputs. -/
theorem exit_codes_amended_witness :
    (mainRun ["install", "widgets"] wFetchFail).exitCode = 0 ∧
    mainRun ["frobnicate"] wFetchFail = ⟨0, true⟩ := by
  have h := exit_codes_amended wFetchFail "widgets" "frobnicate" (by decide)
    (by decide) (by decide) (by decide) (by decide) (by decide)
  exact ⟨h.2.2.1, h.2.2.2.2.2⟩

/-- Claim C2: for a dependency not yet in the manifest, a failure of any
stage before the manifest save (fetch, header copy, library copy) leaves
the persisted dependencies object exactly as it was, with no entry for
the name; a fully successful install adds exactly that name mapped to
the resolved version and changes no other entry.  The patch stage writes
through an ofstream and cannot itself throw. -/
theorem install_failure_leaves_manifest (st : ProjectState) (r v : String)
    (p : Platform) (orc : Oracle) (hfresh : mapGet st.deps r = none) :
    (∀ st', install true st r v p orc = (st', InstallOutcome.failed) →
      st'.deps = st.deps ∧ mapGet st'.deps r = none) ∧
    (∀ st' w, install true st r v p orc = (st', InstallOutcome.success w) →
      mapGet st'.deps r = some (resolveVersion v p) ∧
      ∀ q, q ≠ r → mapGet st'.deps q = mapGet st.deps q) := by
  obtain ⟨f, hf, lf, cw⟩ := orc
  cases f with
  | none =>
    constructor
    · intro st' h
      simp [install, hfresh, Prod.ext_iff] at h
      rw [← h]
      exact ⟨rfl, hfresh⟩
    · intro st' w h
      simp [install, hfresh, Prod.ext_iff] at h
  | some root =>
    rcases h1 : copyHeaders root st.includeFiles hf with ⟨inc', okH⟩
    cases okH with
    | false =>
      constructor
      · intro st' h
        simp [install, hfresh, h1, Prod.ext_iff] at h
        rw [← h]
        exact ⟨rfl, hfresh⟩
      · intro st' w h
        simp [install, hfresh, h1, Prod.ext_iff] at h
    | true =>
      rcases h2 : copyLibs root st.libFiles lf with ⟨lib', okL⟩
      cases okL with
      | false =>
        constructor
        · intro st' h
          simp [install, hfresh, h1, h2, Prod.ext_iff] at h
          rw [← h]
          exact ⟨rfl, hfresh⟩
        · intro st' w h
          simp [install, hfresh, h1, h2, Prod.ext_iff] at h
      | true =>
        constructor
        · intro st' h
          simp [install, hfresh, h1, h2, Prod.ext_iff] at h
        · intro st' w h
          simp [install, hfresh, h1, h2, Prod.ext_iff] at h
          rw [← h.1]
          constructor
          · rw [show (⟨mapSet st.deps r (resolveVersion v p), inc', lib',
                patchCMake st.cmakeBlocks r lib' p⟩ : ProjectState).deps =
                mapSet st.deps r (resolveVersion v p) from rfl, mapGet_mapSet]
            simp
          · intro q hq
            rw [show (⟨mapSet st.deps r (resolveVersion v p), inc', lib',
                patchCMake st.cmakeBlocks r lib' p⟩ : ProjectState).deps =
                mapSet st.deps r (resolveVersion v p) from rfl, mapGet_mapSet]
            rw [if_neg (fun hrq => hq hrq.symm)]

/-- Witness for claim C2: with a failing fetch, install leaves the empty
manifest empty. -/
theorem install_failure_leaves_manifest_witness :
    mapGet stEmpty.deps "widgets" = none ∧
    ((install true stEmpty "widgets" "" Platform.linux orcFetchFail).1).deps = [] := by
  have h := install_failure_leaves_manifest stEmpty "widgets" "" Platform.linux
    orcFetchFail (by decide)
  have hfeq : install true stEmpty "widgets" "" Platform.linux orcFetchFail =
      ((install true stEmpty "widgets" "" Platform.linux orcFetchFail).1,
        InstallOutcome.failed) := by decide
  have h2 := (h.1 _ hfeq).1
  exact ⟨by decide, by simpa [stEmpty] using h2⟩

/-- Claim C9: once integration succeeded, the overall outcome of install
is success whatever the cleanup outcome is; a remove_all failure only
turns into a warning (removeFolderRecursively raises nothing), and the
resulting project state does not depend on the cleanup outcome. -/
theorem cleanup_nonfatal (st : ProjectState) (r v : String) (p : Platform)
    (root : FsDir) (warn : Bool)
    (hfresh : mapGet st.deps r = none)
    (hh : (copyHeaders root st.includeFiles none).2 = true)
    (hl : (copyLibs root st.libFiles none).2 = true) :
    (install true st r v p ⟨some root, none, none, warn⟩).2 =
      InstallOutcome.success (removeFolderRecursively warn) ∧
    (install true st r v p ⟨some root, none, none, true⟩).1 =
      (install true st r v p ⟨some root, none, none, false⟩).1 := by
  rcases h1 : copyHeaders root st.includeFiles none with ⟨inc', okH⟩
  rw [h1] at hh
  cases okH with
  | false => simp at hh
  | true =>
    rcases h2 : copyLibs root st.libFiles none with ⟨lib', okL⟩
    rw [h2] at hl
    cases okL with
    | false => simp at hl
    | true => simp [install, hfresh, h1, h2, removeFolderRecursively]

/-- Witness for claim C9: a failing cleanup still reports success, with
the warning flag set. -/
theorem cleanup_nonfatal_witness :
    (install true stEmpty "widgets" "" Platform.linux
      ⟨some FsDir.nil, none, none, true⟩).2 = InstallOutcome.success true := by
  have h := cleanup_nonfatal stEmpty "widgets" "" Platform.linux FsDir.nil true
    (by decide) (by decide) (by decide)
  exact h.1

/-- A staged tree whose entry named include is a regular file, so it has
no include directory subtree. -/
def fileIncludeTree : FsDir := FsDir.cons "include" (FsEntry.file "stray") FsDir.nil

/-- Whether the staged tree has an include subtree that is a directory. -/
def hasIncludeDirSubtree (d : FsDir) : Bool :=
  match dirLookup "include" d with
  | some (FsEntry.dir _) => true
  | _ => false

/-- Claim C7 counterexample: a staged source with no include directory
subtree (the entry include exists but is a regular file) does not make
header integration a successful no-op: the recursive enumeration throws
and the install fails. -/
theorem headers_file_include_errors :
    hasIncludeDirSubtree fileIncludeTree = false ∧
    copyHeaders fileIncludeTree [] none = ([], false) ∧
    (install true stEmpty "widgets" "" Platform.linux
      ⟨some fileIncludeTree, none, none, false⟩).2 = InstallOutcome.failed := by
  decide

/-- Claim C7 as amended: when the staged source has no entry named
include, header integration is a successful no-op; when the entry is a
regular file, the stage fails; when it is a directory, the stage
succeeds and copies every regular file under it to its relative path in
the consumer include directory (later copies overwrite earlier ones),
leaving every other path untouched. -/
theorem integrate_headers_amended (root : FsDir) (inc : List (String × String)) :
    (dirLookup "include" root = none → copyHeaders root inc none = (inc, true)) ∧
    (∀ c, dirLookup "include" root = some (FsEntry.file c) →
      copyHeaders root inc none = (inc, false)) ∧
    (∀ es, dirLookup "include" root = some (FsEntry.dir es) →
      (copyHeaders root inc none).2 = true ∧
      ∀ q, mapGet (copyHeaders root inc none).1 q =
        match lastVal (dirFiles "" es) q with
        | some c => some c
        | none => mapGet inc q) := by
  refine ⟨?_, ?_, ?_⟩
  · intro h; simp [copyHeaders, h]
  · intro c h; simp [copyHeaders, h]
  · intro es h
    constructor
    · simp [copyHeaders, h]
    · intro q; simp [copyHeaders, h, mapGet_foldSet]

/-- Entries of a staged include directory with a nested header. -/
def incTreeEntries : FsDir := dirOf
  [("widgets", FsEntry.dir (dirOf [("api.h", FsEntry.file "API")])),
   ("top.h", FsEntry.file "TOP")]

/-- A staged tree with a proper include directory subtree. -/
def incTree : FsDir := dirOf [("include", FsEntry.dir incTreeEntries)]

/-- Witness for the amended claim C7: nested headers land at their
relative paths and unrelated files survive. -/
theorem integrate_headers_amended_witness :
    mapGet (copyHeaders incTree [("old.h", "O")] none).1 "widgets/api.h" = some "API" ∧
    mapGet (copyHeaders incTree [("old.h", "O")] none).1 "old.h" = some "O" := by
  have h := (integrate_headers_amended incTree [("old.h", "O")]).2.2 incTreeEntries rfl
  constructor
  · rw [h.2 "widgets/api.h"]; decide
  · rw [h.2 "old.h"]; decide

/-- Claim C8: when the single-child chain from the staged lib subtree
consists of directories, the descent locates the deepest single-child
descendant, which is a directory, the stage succeeds, and exactly the
regular files below it whose extension is .a or .lib are copied into the
consumer lib directory under their bare filename (flattened, later
copies overwriting earlier ones); all other paths keep their content. -/
theorem integrate_libraries_locates_and_copies (root : FsDir)
    (lib : List (String × String)) (e0 : FsEntry)
    (hlib : dirLookup "lib" root = some e0)
    (hchain : chainAllDirs e0 = true) :
    (copyLibs root lib none).2 = true ∧
    ∃ es, descendEntry e0 = FsEntry.dir es ∧
      ∀ q, mapGet (copyLibs root lib none).1 q =
        match lastVal (libTargets es) q with
        | some c => some c
        | none => mapGet lib q := by
  obtain ⟨es, hde⟩ := descendEntry_chain e0 hchain
  refine ⟨?_, es, hde, ?_⟩
  · simp [copyLibs, hlib, hde]
  · intro q; simp [copyLibs, hlib, hde, mapGet_foldSet]

/-- The directory the single-child descent locates in the witness tree:
it holds two library files (one nested) and a non-library file. -/
def libInner : FsDir := dirOf
  [("libfoo.a", FsEntry.file "AA"), ("notes.txt", FsEntry.file "NN"),
   ("sub", FsEntry.dir (dirOf [("libbar.a", FsEntry.file "BB")]))]

/-- A staged lib subtree nesting the payload under one single-child
platform directory. -/
def libChainEntry : FsEntry := FsEntry.dir (dirOf [("x86-release", FsEntry.dir libInner)])

/-- A staged tree with the nested lib subtree. -/
def libTree : FsDir := dirOf [("lib", libChainEntry)]

/-- Witness for claim C8: the .a files (including the nested one) are
copied flat, the non-library file is not, prior contents survive. -/
theorem integrate_libraries_witness :
    (copyLibs libTree [("old.a", "OO")] none).2 = true ∧
    mapGet (copyLibs libTree [("old.a", "OO")] none).1 "libfoo.a" = some "AA" ∧
    mapGet (copyLibs libTree [("old.a", "OO")] none).1 "libbar.a" = some "BB" ∧
    mapGet (copyLibs libTree [("old.a", "OO")] none).1 "notes.txt" = none ∧
    mapGet (copyLibs libTree [("old.a", "OO")] none).1 "old.a" = some "OO" := by
  have h := integrate_libraries_locates_and_copies libTree [("old.a", "OO")]
    libChainEntry rfl rfl
  obtain ⟨es, hde, hq⟩ := h.2
  have h3 : descendEntry libChainEntry = FsEntry.dir libInner := rfl
  rw [h3] at hde
  injection hde with hes
  subst hes
  refine ⟨h.1, ?_, ?_, ?_, ?_⟩
  · rw [hq "libfoo.a"]; decide
  · rw [hq "libbar.a"]; decide
  · rw [hq "notes.txt"]; decide
  · rw [hq "old.a"]; decide

/-- Claim C10: the block appended by a successful install links every
.a/.lib file present in the consumer lib directory at patch time, not
only those the installed dependency contributed: any library file
already present before this install appears among the new block's link
lines. -/
theorem patch_links_every_lib (st : ProjectState) (r v : String) (p : Platform)
    (root : FsDir) (warn : Bool) (f c : String)
    (hfresh : mapGet st.deps r = none)
    (hlibf : mapGet st.libFiles f = some c)
    (hext : isLibName f = true)
    (hl : (copyLibs root st.libFiles none).2 = true) :
    ∀ st' w, install true st r v p ⟨some root, none, none, warn⟩ =
        (st', InstallOutcome.success w) →
      ∃ b : TegenBlock,
        st'.cmakeBlocks = st.cmakeBlocks ++ [b] ∧
        b.marker = markerFor r ∧ f ∈ b.links := by
  intro st' w h
  rcases h1 : copyHeaders root st.includeFiles none with ⟨inc', okH⟩
  cases okH with
  | false => simp [install, hfresh, h1, Prod.ext_iff] at h
  | true =>
    rcases h2 : copyLibs root st.libFiles none with ⟨lib', okL⟩
    rw [h2] at hl
    cases okL with
    | false => simp at hl
    | true =>
      simp [install, hfresh, h1, h2, Prod.ext_iff] at h
      have hsome : ∃ c', mapGet lib' f = some c' := by
        cases hdl : dirLookup "lib" root with
        | none =>
          simp [copyLibs, hdl, Prod.ext_iff] at h2
          rw [← h2]
          exact ⟨c, hlibf⟩
        | some e0 =>
          cases hde : descendEntry e0 with
          | file cc => simp [copyLibs, hdl, hde, Prod.ext_iff] at h2
          | dir es =>
            simp [copyLibs, hdl, hde, Prod.ext_iff] at h2
            rw [← h2, mapGet_foldSet]
            cases hlv : lastVal (libTargets es) f with
            | none => exact ⟨c, hlibf⟩
            | some cc => exact ⟨cc, rfl⟩
      obtain ⟨c', hc'⟩ := hsome
      refine ⟨⟨markerFor r,
        (lib'.filter (fun fc => isLibName fc.1)).map (fun fc => fc.1),
        decide (p = Platform.windows)⟩, ?_, rfl, ?_⟩
      · rw [← h.1]
        simp [patchCMake]
      · exact List.mem_map.mpr
          ⟨(f, c'), List.mem_filter.mpr ⟨mem_of_mapGet lib' f c' hc', hext⟩, rfl⟩

/-- A consumer state after an earlier dependency contributed libold.a. -/
def stWithOld : ProjectState := ⟨[("olddep", "main")], [], [("libold.a", "X")],
  [⟨markerFor "olddep", ["libold.a"], false⟩]⟩

/-- A staged tree for a second dependency contributing libnew.a. -/
def newTree : FsDir := dirOf [("lib", FsEntry.dir
  (dirOf [("libnew.a", FsEntry.file "Y"), ("README.md", FsEntry.file "R")]))]

/-- Witness for claim C10: installing a second dependency appends a block
whose link lines repeat the earlier dependency's library. -/
theorem patch_links_every_lib_witness :
    ∃ b : TegenBlock,
      (install true stWithOld "newdep" "" Platform.linux
        ⟨some newTree, none, none, false⟩).1.cmakeBlocks =
        stWithOld.cmakeBlocks ++ [b] ∧
      b.marker = markerFor "newdep" ∧ "libold.a" ∈ b.links :=
  patch_links_every_lib stWithOld "newdep" "" Platform.linux newTree false
    "libold.a" "X" (by decide) (by decide) (by decide) (by decide)
    (install true stWithOld "newdep" "" Platform.linux
      ⟨some newTree, none, none, false⟩).1
    false (by decide)

end Tegen
